import Mathlib

/-!
Verification of the AI-Task-Tracker repository: a shallow embedding of
its tracking loop (`main.py`), classification response handling
(`image_analysis.py`), topic normalizer (`topic_normalizer.py`) and
activity store (`data_storage.py`), together with theorems settling the
frozen claims about the natural-language specification.
-/

set_option maxRecDepth 4000

namespace TaskTracker

/-! ## Topic normalizer (`topic_normalizer.py`)

`normalize_topic` is a Python function decorated with
`@lru_cache(maxsize=100)`.  Its argument can be `None`, a string, or any
other (hashable) value; we model that value space with `PyVal`.  The
module-level `client` may or may not have been initialized; the remote
chat-completion call either returns a content string or raises, modelled
by an oracle `String → Option String`. -/

/-- A Python value as far as `normalize_topic` inspects it: `None`, a
string, or some other non-string object. -/
inductive PyVal where
  | pynone : PyVal
  | pystr : String → PyVal
  | pyother : PyVal
deriving DecidableEq, Repr

open PyVal

/-- Body of `normalize_topic` (`topic_normalizer.py` lines 62-105),
before memoization is applied.  `clientInit` models whether the
module-level `client` is non-`None`; `remote s` models the chat
completion call on topic `s` (`some content` on success, `none` when the
call raises).  The code returns the input unchanged when the client is
missing, `"Unknown"` for falsy or non-string input, the stripped
response content on success, and the input unchanged when the remote
call raises. -/
def normalize_topic_body (clientInit : Bool) (remote : String → Option String)
    (topic : PyVal) : PyVal :=
  if ¬ clientInit then topic
  else
    match topic with
    | pystr s =>
        if s = "" then pystr "Unknown"
        else
          match remote s with
          | some content => pystr content.trim
          | none => pystr s
    | _ => pystr "Unknown"

/-- Whether a call of `normalize_topic_body` issues a remote request:
the code reaches `client.chat.completions.create` exactly when the
client is initialized and the topic is a truthy string. -/
def normalize_topic_calls_remote (clientInit : Bool) (topic : PyVal) : Bool :=
  clientInit && (match topic with | pystr s => s ≠ "" | _ => false)

/-- The memoization cache of `functools.lru_cache`, most recently used
first. -/
def LruCache := List (PyVal × PyVal)

/-- First-match lookup in the cache. -/
def lruLookup (k : PyVal) : LruCache → Option PyVal
  | [] => none
  | (k', v) :: c => if k' = k then some v else lruLookup k c

/-- On a cache hit `lru_cache` moves the entry to the front
(most-recently-used position). -/
def lruTouch (k : PyVal) (v : PyVal) (c : LruCache) : LruCache :=
  (k, v) :: c.filter (fun p => p.1 ≠ k)

/-- On a cache miss `lru_cache` inserts the new entry at the front and,
past capacity, discards the least-recently-used entry (the last one). -/
def lruInsert (cap : Nat) (k : PyVal) (v : PyVal) (c : LruCache) : LruCache :=
  ((k, v) :: c).take cap

/-- One call of the memoized `normalize_topic`: result value, new cache
state, and whether a remote request was issued during the call. -/
def normalize_topic_cached (cap : Nat) (clientInit : Bool)
    (remote : String → Option String) (c : LruCache) (topic : PyVal) :
    PyVal × LruCache × Bool :=
  match lruLookup topic c with
  | some v => (v, lruTouch topic v c, false)
  | none =>
      let v := normalize_topic_body clientInit remote topic
      (v, lruInsert cap topic v c, normalize_topic_calls_remote clientInit topic)

/-- Number of cache entries. -/
def lruSize (c : LruCache) : Nat := List.length c

/-! Helper lemmas for the LRU cache. -/

/-! ## Tracking loop (`main.py`, `run_tracker_iteration`)

One iteration of the tracking loop, lines 32-124 of `main.py`.  The
external world is modelled by oracles: the window-title lookup (which
either returns a title or raises), and for each retry attempt index the
outcome of `take_screenshot` and of `analyze_screenshot`.  The records
passed to `save_activity` during the iteration are collected in a list,
in call order. -/

/-- A wall-clock instant as produced by `datetime.now()`:
year-month-day hour:minute:second.microsecond. -/
structure Ts where
  year : Nat
  month : Nat
  day : Nat
  hour : Nat
  minute : Nat
  second : Nat
  micro : Nat
deriving DecidableEq, Repr

/-- Outcome of one `take_screenshot()` attempt: a returned value
(`Some path` or `None`), or a raised exception with its message. -/
inductive ShotAttempt where
  | ret : Option String → ShotAttempt
  | exn : String → ShotAttempt
deriving DecidableEq, Repr

/-- The dictionary returned by `analyze_screenshot`, projected onto the
keys the tracking loop reads (`error`, `raw_content`) and the keys the
save step reads (`crisp_description`, `main_topic`,
`short_description`); a missing key is `none`. -/
structure AnalysisDict where
  errorKey : Option String
  rawContent : Option String
  crispDescription : Option String
  mainTopic : Option String
  shortDescription : Option String
deriving DecidableEq, Repr

/-- Outcome of one `analyze_screenshot()` attempt: a returned value
(`Some dict` or `None`), or a raised exception with its message. -/
inductive AnaAttempt where
  | res : Option AnalysisDict → AnaAttempt
  | exn : String → AnaAttempt
deriving DecidableEq, Repr

/-- One `save_activity(timestamp, app_name, crisp_desc, main_topic,
short_desc, screenshot_path)` call made by the loop. -/
structure SaveCall where
  timestamp : Ts
  app_name : String
  crisp_desc : String
  main_topic : String
  short_desc : String
  screenshot_path : Option String
deriving DecidableEq, Repr

/-- `main.py` lines 41-46: the active window title, or the default
sentinel `"Unknown"` when the lookup raises. -/
def active_window_of (win : Except String String) : String :=
  match win with
  | .ok w => w
  | .error _ => "Unknown"

/-- The screenshot retry loop, `main.py` lines 49-63, iterated over the
attempt indices `range(MAX_RETRIES)`.  A truthy (non-empty) returned
path breaks the loop; a falsy return or an exception sleeps and moves to
the next attempt, leaving `screenshot_path` falsy. -/
def shotLoop (shots : Nat → ShotAttempt) : List Nat → Option String
  | [] => none
  | i :: rest =>
      match shots i with
      | .ret (some p) => if p = "" then shotLoop shots rest else some p
      | .ret none => shotLoop shots rest
      | .exn _ => shotLoop shots rest

/-- The analysis retry loop, `main.py` lines 72-101, iterated over the
attempt indices `range(MAX_RETRIES)`.  Returns the final
`analysis_result` together with the `save_activity` calls the loop
itself made.  An `error`-keyed result retries only when the error is
`"JSONDecodeError"` and retries remain, otherwise it saves the
`"Analysis Error"` record and breaks with `analysis_result = None`; a
`None` result sleeps and retries; an exception retries unless the
attempt is the last one, in which case it saves the `"Analysis Failed"`
record. -/
def anaLoop (maxR : Nat) (analyses : Nat → AnaAttempt) (t : Ts)
    (aw path : String) : List Nat → Option AnalysisDict × List SaveCall
  | [] => (none, [])
  | i :: rest =>
      match analyses i with
      | .res (some d) =>
          match d.errorKey with
          | some k =>
              if k = "JSONDecodeError" ∧ i < maxR - 1 then
                anaLoop maxR analyses t aw path rest
              else
                (none, [⟨t, aw, "Analysis Error", "Error",
                  d.rawContent.getD "Analysis failed", some path⟩])
          | none => (some d, [])
      | .res none => anaLoop maxR analyses t aw path rest
      | .exn m =>
          if i < maxR - 1 then
            anaLoop maxR analyses t aw path rest
          else
            (none, [⟨t, aw, "Analysis Failed", "Error",
              "Exception during analysis: " ++ m, some path⟩])

/-- `run_tracker_iteration` (`main.py` lines 32-124): window title, then
the screenshot retry loop (aborting the iteration when no screenshot was
obtained), then the analysis retry loop, then the save step, which
persists a record only for a truthy error-free analysis result.  The
returned list holds every `save_activity` call of the iteration. -/
def run_tracker_iteration (maxR : Nat) (t : Ts) (win : Except String String)
    (shots : Nat → ShotAttempt) (analyses : Nat → AnaAttempt) : List SaveCall :=
  let aw := active_window_of win
  match shotLoop shots (List.range maxR) with
  | none => []
  | some path =>
      match anaLoop maxR analyses t aw path (List.range maxR) with
      | (some d, recs) =>
          if d.errorKey = none then
            recs ++ [⟨t, aw, d.crispDescription.getD "N/A",
              d.mainTopic.getD "N/A", d.shortDescription.getD "N/A", some path⟩]
          else recs
      | (none, recs) => recs

/-- An analysis attempt outcome on which the loop moves to the next
attempt without saving anything: a `None` result, a
`"JSONDecodeError"`-classified error with retries remaining, or an
exception with retries remaining. -/
def anaRetryable (maxR : Nat) (analyses : Nat → AnaAttempt) (i : Nat) : Prop :=
  analyses i = .res none ∨
  (∃ d, analyses i = .res (some d) ∧ d.errorKey = some "JSONDecodeError" ∧
    i < maxR - 1) ∨
  (∃ m, analyses i = .exn m ∧ i < maxR - 1)

/-! ## Activity store (`data_storage.py`)

`save_activity` appends one row to the CSV file (creating it, with a
header, on first write); `load_activity_data` reads the file back,
converting the `Timestamp` column with `pd.to_datetime` (which raises —
caught, yielding an empty frame — on any unparseable non-NA value) and
mapping empty cells and the CSV reader's NA tokens to NaN.

The file is modelled at the row/cell level (`none` = missing file,
`some rows` = file with its header line plus data rows); the csv
quoting/unquoting performed by `to_csv`/`read_csv` round-trips cell
text exactly and is not re-modelled.  Timestamps are serialized by
`str(datetime)` as `YYYY-MM-DD HH:MM:SS[.ffffff]` (the fractional part
omitted when the microsecond is 0); `parseTs` models the fragment of
pandas timestamp parsing relevant here: it accepts exactly this
canonical shape, and strings such as `"hello"` fail to parse, as they
do under `pd.to_datetime`. -/

/-- The digit character for `d` (`0`-`9`). -/
def dChar (d : Nat) : Char := Char.ofNat (48 + d)

/-- Numeric value of a digit character. -/
def dVal (c : Char) : Nat := c.toNat - 48

/-- Whether `c` is an ASCII digit. -/
def isDig (c : Char) : Bool := 48 ≤ c.toNat && c.toNat ≤ 57

/-- `k` written big-endian in exactly `n` digits (zero-padded), as
`"%04d"`-style formatting does. -/
def padNum : Nat → Nat → List Char
  | 0, _ => []
  | n + 1, k => dChar (k / 10 ^ n) :: padNum n (k % 10 ^ n)

/-- Read exactly `n` digit characters, big-endian, onto accumulator
`acc`; fails on a non-digit or early end of input. -/
def readFixed : Nat → Nat → List Char → Option (Nat × List Char)
  | 0, acc, l => some (acc, l)
  | _ + 1, _, [] => none
  | n + 1, acc, c :: l =>
      if isDig c then readFixed n (acc * 10 + dVal c) l else none

/-- Consume one expected literal character. -/
def expectChar (c : Char) : List Char → Option (List Char)
  | [] => none
  | x :: r => if x = c then some r else none

/-- Field bounds guaranteed for any instant `datetime.now()` can
produce (digit-width bounds suffice for the round trip). -/
def ValidTs (t : Ts) : Prop :=
  t.year < 10 ^ 4 ∧ t.month < 10 ^ 2 ∧ t.day < 10 ^ 2 ∧ t.hour < 10 ^ 2 ∧
  t.minute < 10 ^ 2 ∧ t.second < 10 ^ 2 ∧ t.micro < 10 ^ 6

instance (t : Ts) : Decidable (ValidTs t) := by
  unfold ValidTs
  infer_instance

/-- The characters of `str(timestamp)`:
`YYYY-MM-DD HH:MM:SS` followed by `.ffffff` when the microsecond is
non-zero (Python omits the fractional part when it is 0). -/
def serTsChars (t : Ts) : List Char :=
  padNum 4 t.year ++ '-' ::
    (padNum 2 t.month ++ '-' ::
      (padNum 2 t.day ++ ' ' ::
        (padNum 2 t.hour ++ ':' ::
          (padNum 2 t.minute ++ ':' ::
            (padNum 2 t.second ++
              (if t.micro = 0 then [] else '.' :: padNum 6 t.micro))))))

/-- `str(timestamp)` as written into the Timestamp cell of the CSV. -/
def serTs (t : Ts) : String := ⟨serTsChars t⟩

/-- The fragment of `pd.to_datetime` string parsing exercised by this
store: the canonical `str(datetime)` shapes parse back to the instant,
anything else fails. -/
def parseTs (l : List Char) : Option Ts :=
  match readFixed 4 0 l with
  | none => none
  | some (y, l1) =>
  match expectChar '-' l1 with
  | none => none
  | some l2 =>
  match readFixed 2 0 l2 with
  | none => none
  | some (mo, l3) =>
  match expectChar '-' l3 with
  | none => none
  | some l4 =>
  match readFixed 2 0 l4 with
  | none => none
  | some (d, l5) =>
  match expectChar ' ' l5 with
  | none => none
  | some l6 =>
  match readFixed 2 0 l6 with
  | none => none
  | some (h, l7) =>
  match expectChar ':' l7 with
  | none => none
  | some l8 =>
  match readFixed 2 0 l8 with
  | none => none
  | some (mi, l9) =>
  match expectChar ':' l9 with
  | none => none
  | some l10 =>
  match readFixed 2 0 l10 with
  | none => none
  | some (s, l11) =>
  match l11 with
  | [] => some ⟨y, mo, d, h, mi, s, 0⟩
  | '.' :: l12 =>
      match readFixed 6 0 l12 with
      | none => none
      | some (us, l13) =>
          if l13 = [] then some ⟨y, mo, d, h, mi, s, us⟩ else none
  | _ => none

/-- The default NA tokens of `pandas.read_csv`: a cell equal to one of
these (including the empty cell) is loaded as NaN rather than as text. -/
def naTokens : List String :=
  ["", "#N/A", "#N/A N/A", "#NA", "-1.#IND", "-1.#QNAN", "-NaN", "-nan",
   "1.#IND", "1.#QNAN", "<NA>", "N/A", "NA", "NULL", "NaN", "None",
   "n/a", "nan", "null"]

/-- A cell as it comes back from `read_csv` after per-column dtype
inference: text (object column), a 64-bit integer, a float (held here
as the exact decimal rational the cell denotes; binary float64 rounding
is not re-modelled, and no theorem depends on a float's value), a
signed infinity, a boolean, or NaN. -/
inductive LoadedCell where
  | str : String → LoadedCell
  | intV : Int → LoadedCell
  | floatV : ℚ → LoadedCell
  | infV : Bool → LoadedCell
  | boolV : Bool → LoadedCell
  | nan : LoadedCell
deriving DecidableEq, Repr

/-- One data row of `data/activity_log.csv` as written (all cells
text; `save_activity` writes `None` as an empty cell). -/
structure CsvRow where
  timestamp : String
  app_name : String
  crisp_desc : String
  main_topic : String
  short_desc : String
  screenshot_file : String
deriving DecidableEq, Repr

/-- `os.path.basename`: the part of the path after the last `/`. -/
def basenameAux : List Char → List Char → List Char
  | [], acc => acc.reverse
  | c :: r, acc =>
      if c = '/' then basenameAux r [] else basenameAux r (c :: acc)

/-- `os.path.basename` on a POSIX path. -/
def basename (s : String) : String := ⟨basenameAux s.toList []⟩

/-- The `ScreenshotFile` cell value `save_activity` writes:
`os.path.basename(screenshot_path) if screenshot_path else None`, with
Python `None` written by `to_csv` as an empty cell. -/
def shotCellStr (screenshot_path : Option String) : String :=
  match screenshot_path with
  | some p => if p = "" then "" else basename p
  | none => ""

/-- What the written `ScreenshotFile` cell loads back as: the basename
for a truthy path, NaN (the empty cell) otherwise. -/
def shotCellLoaded (screenshot_path : Option String) : LoadedCell :=
  match screenshot_path with
  | some p => if p = "" then LoadedCell.nan else LoadedCell.str (basename p)
  | none => LoadedCell.nan

/-- `save_activity` (`data_storage.py` lines 17-41): builds the row —
storing `os.path.basename(screenshot_path)` when the path is truthy and
an empty cell (pandas `None`) otherwise — and appends it to the CSV,
creating the file (with its header) when absent. -/
def save_activity (file : Option (List CsvRow)) (timestamp : Ts)
    (app_name crisp_desc main_topic short_desc : String)
    (screenshot_path : Option String) : Option (List CsvRow) :=
  let row : CsvRow :=
    ⟨serTs timestamp, app_name, crisp_desc, main_topic, short_desc,
      shotCellStr screenshot_path⟩
  match file with
  | none => some [row]
  | some rows => some (rows ++ [row])

/-- The `Timestamp` cell under `pd.to_datetime`: an NA cell becomes NaT
(`some none`), a parseable cell becomes an instant, and an unparseable
cell raises (`none`). -/
def tsCell (s : String) : Option (Option Ts) :=
  if s ∈ naTokens then some none else (parseTs s.toList).map some

/-- One row of the loaded frame: a `Timestamp` instant (or NaT) plus
the remaining cells after NA conversion. -/
structure LoadedRow where
  timestamp : Option Ts
  app_name : LoadedCell
  crisp_desc : LoadedCell
  main_topic : LoadedCell
  short_desc : LoadedCell
  screenshot_file : LoadedCell
deriving DecidableEq, Repr

/-! ## Classification response handling (`image_analysis.py` lines 127-146)

`analyze_screenshot` strips optional code fences from the model's
response text with Python's `str.strip(chars)` — which removes
characters of the given *set* from both ends — then `json.loads` it and
validates the three required keys, returning the parsed object, an
error dictionary (`JSONDecodeError` / `Invalid JSON structure`, with
the stripped text as `raw_content`), or — when the key check raises
`TypeError` on a non-container value, caught by the outer
`except Exception` — `None`.

The JSON parser below mirrors `json.loads` on objects, arrays, strings
with escapes, numbers (as exact rationals), literals, and the Python
extensions `NaN`/`Infinity`/`-Infinity`; parsing is fuelled, with fuel
ample for the input length. -/

/-- Backtick. -/
def bq : Char := Char.ofNat 96

/-- Whitespace stripped by Python's bare `str.strip()`. -/
def isPyWs (c : Char) : Bool :=
  (c == ' ') || (c == '\t') || (c == '\n') || (c == '\r') ||
  (c == Char.ofNat 11) || (c == Char.ofNat 12)

/-- Membership in a character set, as `str.strip(chars)` uses it. -/
def inSet (set : List Char) (c : Char) : Bool := set.contains c

/-- The character set of `strip("```json")`. -/
def fenceJsonSet : List Char := [bq, 'j', 's', 'o', 'n']

/-- The character set of `strip("```")`. -/
def fenceSet : List Char := [bq]

/-- Drop matching characters from the end of a list. -/
def dropWhileEndP (p : Char → Bool) (l : List Char) : List Char :=
  (l.reverse.dropWhile p).reverse

/-- Python `str.strip(chars)`: remove characters of the set from both
ends. -/
def pyStripSet (set : List Char) (l : List Char) : List Char :=
  dropWhileEndP (inSet set) (l.dropWhile (inSet set))

/-- Python bare `str.strip()`: remove whitespace from both ends. -/
def pyStripWs (l : List Char) : List Char :=
  dropWhileEndP isPyWs (l.dropWhile isPyWs)

/-- Python `str.startswith`. -/
def pyStartsWith : List Char → List Char → Bool
  | [], _ => true
  | _ :: _, [] => false
  | p :: ps, c :: cs => p == c && pyStartsWith ps cs

/-- Lines 129-132 of `image_analysis.py`:
`strip("```json").strip()` when the text starts with ```` ```json ````,
`strip("```").strip()` when it starts with ```` ``` ````, unchanged
otherwise. -/
def stripFences (l : List Char) : List Char :=
  if pyStartsWith ("```json".toList) l then pyStripWs (pyStripSet fenceJsonSet l)
  else if pyStartsWith ("```".toList) l then pyStripWs (pyStripSet fenceSet l)
  else l

/-- A parsed JSON value (`json.loads` result).  Python's non-finite
float extensions are separate constructors; note Python `nan` compares
unequal to itself, which this embedding does not re-model. -/
inductive Json where
  | jnull : Json
  | jbool : Bool → Json
  | jnum : ℚ → Json
  | jstr : String → Json
  | jarr : List Json → Json
  | jobj : List (String × Json) → Json
  | jnan : Json
  | jinf : Json
  | jneginf : Json

/-- JSON insignificant whitespace. -/
def isJsonWs (c : Char) : Bool :=
  (c == ' ') || (c == '\t') || (c == '\n') || (c == '\r')

/-- Skip insignificant whitespace. -/
def skipWs (l : List Char) : List Char := l.dropWhile isJsonWs

/-- Consume a literal token. -/
def stripLit : List Char → List Char → Option (List Char)
  | [], l => some l
  | _ :: _, [] => none
  | p :: ps, c :: cs => if p == c then stripLit ps cs else none

/-- Hex digit value. -/
def hexVal (c : Char) : Option Nat :=
  if 48 ≤ c.toNat ∧ c.toNat ≤ 57 then some (c.toNat - 48)
  else if 97 ≤ c.toNat ∧ c.toNat ≤ 102 then some (c.toNat - 87)
  else if 65 ≤ c.toNat ∧ c.toNat ≤ 70 then some (c.toNat - 55)
  else none

/-- Body of a JSON string after the opening quote: returns the decoded
characters and the remainder after the closing quote.  Unescaped
control characters are rejected (`strict=True`); a `\mathrm{u}` escape
must denote a valid scalar value. -/
def parseStrBody : List Char → Option (List Char × List Char)
  | [] => none
  | '"' :: r => some ([], r)
  | '\\' :: 'u' :: a :: b :: c :: d :: r =>
      (match hexVal a, hexVal b, hexVal c, hexVal d with
       | some x, some y, some z, some w =>
           let n := ((x * 16 + y) * 16 + z) * 16 + w
           if n.isValidChar then
             (parseStrBody r).map (fun q => (Char.ofNat n :: q.1, q.2))
           else none
       | _, _, _, _ => none)
  | '\\' :: e :: r =>
      (match (if e == '"' then some '"'
        else if e == '\\' then some '\\'
        else if e == '/' then some '/'
        else if e == 'b' then some (Char.ofNat 8)
        else if e == 'f' then some (Char.ofNat 12)
        else if e == 'n' then some '\n'
        else if e == 'r' then some '\r'
        else if e == 't' then some '\t'
        else none) with
       | some c => (parseStrBody r).map (fun q => (c :: q.1, q.2))
       | none => none)
  | c :: r =>
      if c.toNat < 32 then none
      else (parseStrBody r).map (fun q => (c :: q.1, q.2))

/-- Digits to a natural number, most significant first. -/
def digitsToNat (ds : List Char) : Nat := ds.foldl (fun a c => a * 10 + dVal c) 0

/-- A JSON number: optional minus, integer part without leading zeros,
optional fraction, optional exponent; its exact rational value. -/
def parseNum (l : List Char) : Option (ℚ × List Char) :=
  let (neg, l1) := match l with
    | '-' :: r => (true, r)
    | _ => (false, l)
  let ids := l1.takeWhile isDig
  let r1 := l1.drop ids.length
  if ids.isEmpty then none
  else if 2 ≤ ids.length ∧ ids.headD '0' = '0' then none
  else
    let (fds, r2) := match r1 with
      | '.' :: r' => (r'.takeWhile isDig, r'.drop (r'.takeWhile isDig).length)
      | _ => ([], r1)
    if r1 ≠ r2 ∧ fds.isEmpty then none
    else
      let (eneg, eds, r3) := match r2 with
        | 'e' :: '+' :: r' => (false, r'.takeWhile isDig, r'.drop (r'.takeWhile isDig).length)
        | 'e' :: '-' :: r' => (true, r'.takeWhile isDig, r'.drop (r'.takeWhile isDig).length)
        | 'e' :: r' => (false, r'.takeWhile isDig, r'.drop (r'.takeWhile isDig).length)
        | 'E' :: '+' :: r' => (false, r'.takeWhile isDig, r'.drop (r'.takeWhile isDig).length)
        | 'E' :: '-' :: r' => (true, r'.takeWhile isDig, r'.drop (r'.takeWhile isDig).length)
        | 'E' :: r' => (false, r'.takeWhile isDig, r'.drop (r'.takeWhile isDig).length)
        | _ => (false, [], r2)
      if r2 ≠ r3 ∧ eds.isEmpty then none
      else
        let mag : ℚ := ((digitsToNat ids : ℚ) +
          (digitsToNat fds : ℚ) / ((10 : ℚ) ^ fds.length)) *
          (10 : ℚ) ^ ((if eneg then -(digitsToNat eds : ℤ) else (digitsToNat eds : ℤ)))
        some ((if neg then -mag else mag), r3)

mutual

/-- One JSON value (`json.loads` grammar plus Python's
`NaN`/`Infinity`/`-Infinity` constants), fuelled. -/
def parseVal : Nat → List Char → Option (Json × List Char)
  | 0, _ => none
  | f + 1, l =>
      match skipWs l with
      | '{' :: r => parseObjFirst f r
      | '[' :: r => parseArrFirst f r
      | '"' :: r => (parseStrBody r).map (fun q => (Json.jstr ⟨q.1⟩, q.2))
      | l' =>
          match stripLit "true".toList l' with
          | some r => some (Json.jbool true, r)
          | none =>
          match stripLit "false".toList l' with
          | some r => some (Json.jbool false, r)
          | none =>
          match stripLit "null".toList l' with
          | some r => some (Json.jnull, r)
          | none =>
          match stripLit "NaN".toList l' with
          | some r => some (Json.jnan, r)
          | none =>
          match stripLit "Infinity".toList l' with
          | some r => some (Json.jinf, r)
          | none =>
          match stripLit "-Infinity".toList l' with
          | some r => some (Json.jneginf, r)
          | none => (parseNum l').map (fun q => (Json.jnum q.1, q.2))

/-- Object body after `{`. -/
def parseObjFirst : Nat → List Char → Option (Json × List Char)
  | 0, _ => none
  | f + 1, l =>
      match skipWs l with
      | '}' :: r => some (Json.jobj [], r)
      | '"' :: r =>
          match parseStrBody r with
          | none => none
          | some (k, r1) =>
              match skipWs r1 with
              | ':' :: r2 =>
                  match parseVal f r2 with
                  | none => none
                  | some (v, r3) => parseObjRest f [(⟨k⟩, v)] r3
              | _ => none
      | _ => none

/-- Object continuation: `}` or `, "key" : value` repeated; members
accumulated in reverse. -/
def parseObjRest : Nat → List (String × Json) → List Char →
    Option (Json × List Char)
  | 0, _, _ => none
  | f + 1, acc, l =>
      match skipWs l with
      | '}' :: r => some (Json.jobj acc.reverse, r)
      | ',' :: r =>
          match skipWs r with
          | '"' :: r1 =>
              match parseStrBody r1 with
              | none => none
              | some (k, r2) =>
                  match skipWs r2 with
                  | ':' :: r3 =>
                      match parseVal f r3 with
                      | none => none
                      | some (v, r4) => parseObjRest f ((⟨k⟩, v) :: acc) r4
                  | _ => none
          | _ => none
      | _ => none

/-- Array body after `[`. -/
def parseArrFirst : Nat → List Char → Option (Json × List Char)
  | 0, _ => none
  | f + 1, l =>
      match skipWs l with
      | ']' :: r => some (Json.jarr [], r)
      | l' =>
          match parseVal f l' with
          | none => none
          | some (v, r) => parseArrRest f [v] r

/-- Array continuation: `]` or `, value` repeated; elements accumulated
in reverse. -/
def parseArrRest : Nat → List Json → List Char → Option (Json × List Char)
  | 0, _, _ => none
  | f + 1, acc, l =>
      match skipWs l with
      | ']' :: r => some (Json.jarr acc.reverse, r)
      | ',' :: r =>
          match parseVal f r with
          | none => none
          | some (v, r1) => parseArrRest f (v :: acc) r1
      | _ => none

end

/-- `json.loads`: parse one value, allow surrounding whitespace, reject
trailing data. -/
def loads (l : List Char) : Except Unit Json :=
  match parseVal (2 * l.length + 8) l with
  | none => Except.error ()
  | some (v, rest) =>
      if (skipWs rest).isEmpty then Except.ok v else Except.error ()

/-- Is `n` a contiguous run of `h`? (Python `in` on strings). -/
def isSubSeq (n : List Char) : List Char → Bool
  | [] => n.isEmpty
  | c :: t => pyStartsWith n (c :: t) || isSubSeq n t

/-- Python `k in j` for the membership tests of the key check: key
lookup for a dict, substring for a string, element equality for a list;
`none` models the `TypeError` raised on other values. -/
def pyContains (j : Json) (k : String) : Option Bool :=
  match j with
  | Json.jobj kvs => some (kvs.any (fun kv => kv.1 == k))
  | Json.jstr s => some (isSubSeq k.toList s.toList)
  | Json.jarr vs => some (vs.any (fun v =>
      match v with
      | Json.jstr s => s == k
      | _ => false))
  | _ => none

/-- `all(k in analysis_json for k in [...])` over the three required
keys, with the first `TypeError` propagating (`none`). -/
def keyCheck (j : Json) : Option Bool :=
  match pyContains j "crisp_description" with
  | none => none
  | some false => some false
  | some true =>
      match pyContains j "main_topic" with
      | none => none
      | some false => some false
      | some true => pyContains j "short_description"

/-- Outcome of the response-handling block: the validated object, an
error dictionary (`kind`, `raw_content`), or a `None` return from
`analyze_screenshot` (the `TypeError` path). -/
inductive ARes where
  | success : Json → ARes
  | errRes : String → String → ARes
  | hardFail : ARes

/-- `json.loads` + key validation applied to given text, with that text
as the `raw_content` of any error dictionary. -/
def parse_validate (c : List Char) : ARes :=
  match loads c with
  | Except.error _ => ARes.errRes "JSONDecodeError" ⟨c⟩
  | Except.ok j =>
      match keyCheck j with
      | some true => ARes.success j
      | some false => ARes.errRes "Invalid JSON structure" ⟨c⟩
      | none => ARes.hardFail

/-- The full response-handling block of `analyze_screenshot`: strip
optional code fences (rebinding `analysis_content`), then parse and
validate. -/
def classify_content (content : List Char) : ARes :=
  parse_validate (stripFences content)

/-- A response wrapped in ```` ```json ```` fences. -/
def wrapJson (s : List Char) : List Char :=
  "```json\n".toList ++ s ++ "\n```".toList

/-- A response wrapped in plain ```` ``` ```` fences. -/
def wrapPlain (s : List Char) : List Char :=
  "```\n".toList ++ s ++ "\n```".toList

/-! ## `read_csv` dtype inference and the loaded frame

`pd.read_csv` infers one dtype per column: a column whose non-NA cells
are all in-range integer literals (and that has no NA cell, since int64
cannot hold NaN) loads as int64; a column whose non-NA cells are all
float literals (or infinities) loads as float64; a column whose non-NA
cells are all the reader's boolean tokens loads as booleans; any other
column stays object, its cells the written text with NA cells as NaN.
So `"123"` loads back as the integer `123`, `"00123"` as `123`, and
`"True"` as a boolean — not as the written strings. -/

/-- An integer literal as the csv reader accepts it: optional sign,
one or more digits (leading zeros allowed). -/
def csvIntVal (s : String) : Option Int :=
  let l := s.toList
  let (neg, l1) : Bool × List Char :=
    match l with
    | '-' :: r => (true, r)
    | '+' :: r => (false, r)
    | _ => (false, l)
  if ¬ l1.isEmpty ∧ l1.all isDig then
    some (if neg then -(digitsToNat l1 : Int) else (digitsToNat l1 : Int))
  else none

/-- A finite float literal as the csv reader accepts it: optional sign,
digits with an optional fractional part (or a bare fractional part),
and an optional exponent; its exact decimal value. -/
def csvFloatVal (s : String) : Option ℚ :=
  let l := s.toList
  let (neg, l1) : Bool × List Char :=
    match l with
    | '-' :: r => (true, r)
    | '+' :: r => (false, r)
    | _ => (false, l)
  let ids := l1.takeWhile isDig
  let r1 := l1.drop ids.length
  let (fds, r2) : List Char × List Char :=
    match r1 with
    | '.' :: r' => (r'.takeWhile isDig, r'.drop (r'.takeWhile isDig).length)
    | _ => ([], r1)
  if ids.isEmpty ∧ fds.isEmpty then none
  else
    let (eneg, eds, r3) : Bool × List Char × List Char :=
      match r2 with
      | 'e' :: '+' :: r' => (false, r'.takeWhile isDig, r'.drop (r'.takeWhile isDig).length)
      | 'e' :: '-' :: r' => (true, r'.takeWhile isDig, r'.drop (r'.takeWhile isDig).length)
      | 'e' :: r' => (false, r'.takeWhile isDig, r'.drop (r'.takeWhile isDig).length)
      | 'E' :: '+' :: r' => (false, r'.takeWhile isDig, r'.drop (r'.takeWhile isDig).length)
      | 'E' :: '-' :: r' => (true, r'.takeWhile isDig, r'.drop (r'.takeWhile isDig).length)
      | 'E' :: r' => (false, r'.takeWhile isDig, r'.drop (r'.takeWhile isDig).length)
      | _ => (false, [], r2)
    if r2 ≠ r3 ∧ eds.isEmpty then none
    else if ¬ r3.isEmpty then none
    else
      let mag : ℚ := ((digitsToNat ids : ℚ) +
        (digitsToNat fds : ℚ) / ((10 : ℚ) ^ fds.length)) *
        (10 : ℚ) ^ (if eneg then -(digitsToNat eds : ℤ) else (digitsToNat eds : ℤ))
      some (if neg then -mag else mag)

/-- Infinity tokens the reader's float conversion accepts, with their
sign. -/
def infTokSign (s : String) : Option Bool :=
  if s ∈ ["inf", "Inf", "INF", "Infinity", "infinity", "INFINITY"] then
    some false
  else if s ∈ ["+inf", "+Inf", "+INF", "+Infinity", "+infinity",
      "+INFINITY"] then some false
  else if s ∈ ["-inf", "-Inf", "-INF", "-Infinity", "-infinity",
      "-INFINITY"] then some true
  else none

/-- The reader's default boolean tokens. -/
def csvBoolVal (s : String) : Option Bool :=
  if s ∈ ["TRUE", "True", "true"] then some true
  else if s ∈ ["FALSE", "False", "false"] then some false
  else none

/-- Whether a cell is an integer literal fitting int64. -/
def cellIntOk (s : String) : Bool :=
  match csvIntVal s with
  | some v => decide (-(2 ^ 63) ≤ v) && decide (v < 2 ^ 63)
  | none => false

/-- Whether a cell is float-convertible (finite literal or infinity). -/
def cellNumericOk (s : String) : Bool :=
  (csvFloatVal s).isSome || (infTokSign s).isSome

/-- The dtype `read_csv` settles on for a column. -/
inductive ColType where
  | tInt : ColType
  | tFloat : ColType
  | tBool : ColType
  | tObj : ColType
deriving DecidableEq, Repr

/-- Dtype inference over one column's cells: all-NA columns are float
(of NaNs); all-int columns without NA cells are int64 (an NA forces
float64); all-numeric columns are float64; all-boolean-token columns
load as booleans (with NA cells, an object column of booleans and NaN —
either way the values are booleans); anything else is object. -/
def inferColType (cells : List String) : ColType :=
  let nonNA := cells.filter (fun s => decide (s ∉ naTokens))
  if nonNA.isEmpty then ColType.tFloat
  else if nonNA.all cellIntOk &&
      !(cells.any (fun s => decide (s ∈ naTokens))) then ColType.tInt
  else if nonNA.all cellNumericOk then ColType.tFloat
  else if nonNA.all (fun s => (csvBoolVal s).isSome) then ColType.tBool
  else ColType.tObj

/-- One cell under its column's dtype; NA cells are NaN in every
dtype. -/
def convCell (ct : ColType) (s : String) : LoadedCell :=
  if s ∈ naTokens then LoadedCell.nan
  else
    match ct with
    | ColType.tInt =>
        match csvIntVal s with
        | some v => LoadedCell.intV v
        | none => LoadedCell.str s
    | ColType.tFloat =>
        match infTokSign s with
        | some b => LoadedCell.infV b
        | none =>
            match csvFloatVal s with
            | some q => LoadedCell.floatV q
            | none => LoadedCell.str s
    | ColType.tBool =>
        match csvBoolVal s with
        | some b => LoadedCell.boolV b
        | none => LoadedCell.str s
    | ColType.tObj => LoadedCell.str s

/-- The whole loaded frame: each of the five text columns converted
under its inferred dtype, and the `Timestamp` column through
`pd.to_datetime` (only used when that conversion raised nowhere, so
`tsCell` is `some _` on every row). -/
def convertFrame (rows : List CsvRow) : List LoadedRow :=
  rows.map (fun r =>
    ⟨(tsCell r.timestamp).getD none,
     convCell (inferColType (rows.map (fun x => x.app_name))) r.app_name,
     convCell (inferColType (rows.map (fun x => x.crisp_desc))) r.crisp_desc,
     convCell (inferColType (rows.map (fun x => x.main_topic))) r.main_topic,
     convCell (inferColType (rows.map (fun x => x.short_desc))) r.short_desc,
     convCell (inferColType (rows.map (fun x => x.screenshot_file)))
       r.screenshot_file⟩)

/-- `load_activity_data` (`data_storage.py` lines 43-62): an empty
frame for a missing file; otherwise `read_csv` (with dtype inference)
followed by `pd.to_datetime` on the whole `Timestamp` column — if any
cell of that column fails to convert, the raised error is caught and an
empty frame is returned; no exception propagates. -/
def load_activity_data (file : Option (List CsvRow)) : List LoadedRow :=
  match file with
  | none => []
  | some rows =>
      if rows.all (fun r => (tsCell r.timestamp).isSome) then convertFrame rows
      else []

/-- A cell that the reader leaves as text in every column context: not
an NA token and not interpretable as an integer, float, infinity, or
boolean. -/
def PlainText (s : String) : Prop :=
  s ∉ naTokens ∧ csvIntVal s = none ∧ csvFloatVal s = none ∧
  infTokSign s = none ∧ csvBoolVal s = none

instance (s : String) : Decidable (PlainText s) := by
  unfold PlainText
  infer_instance

/-! ## Theorems -/

theorem lruLookup_touch_self (k v : PyVal) (c : LruCache) :
    lruLookup k (lruTouch k v c) = some v := by
  simp [lruTouch, lruLookup]

theorem lruLookup_insert_self (cap : Nat) (hcap : 1 ≤ cap) (k v : PyVal)
    (c : LruCache) : lruLookup k (lruInsert cap k v c) = some v := by
  unfold lruInsert
  match cap, hcap with
  | (n+1), _ => simp [List.take, lruLookup]

theorem lruSize_touch_le (k v : PyVal) (c : LruCache) :
    lruLookup k c = some v → lruSize (lruTouch k v c) ≤ lruSize c := by
  induction c with
  | nil => intro h; simp [lruLookup] at h
  | cons p rest ih =>
      intro h
      by_cases hk : p.1 = k
      · simp [lruTouch, lruSize, List.filter, hk]
        have h1 := List.length_filter_le (fun q : PyVal × PyVal => !decide (q.1 = k)) rest
        omega
      · have : lruLookup k rest = some v := by
          simpa [lruLookup, hk] using h
        have ih' := ih this
        simp [lruTouch, lruSize, List.filter, hk] at ih' ⊢
        omega

theorem lruSize_insert_le (cap : Nat) (k v : PyVal) (c : LruCache) :
    lruSize (lruInsert cap k v c) ≤ cap := by
  simp [lruInsert, lruSize]

/-- C5 counterexample: with an uninitialized client, `normalize_topic`
returns the degenerate input `None` unchanged instead of the sentinel
`"Unknown"` — the `if not client` check precedes the degenerate-input
check. -/
theorem normalize_topic_none_client_counterexample :
    normalize_topic_body false (fun _ => none) PyVal.pynone = PyVal.pynone ∧
    PyVal.pynone ≠ PyVal.pystr "Unknown" := by
  exact ⟨rfl, by decide⟩

/-- C5 (amended): when the client is initialized, every degenerate input
(`None`, the empty string, or a non-string value) maps to the sentinel
`"Unknown"`; when the client is uninitialized, the input is returned
unchanged (even a degenerate one). -/
theorem normalize_topic_degenerate_amended (remote : String → Option String)
    (topic : PyVal)
    (hdeg : topic = PyVal.pynone ∨ topic = PyVal.pystr "" ∨ topic = PyVal.pyother) :
    normalize_topic_body true remote topic = PyVal.pystr "Unknown" ∧
    ∀ remote2 : String → Option String,
      normalize_topic_body false remote2 topic = topic := by
  constructor
  · rcases hdeg with h | h | h <;> subst h <;> simp [normalize_topic_body]
  · intro remote2
    simp [normalize_topic_body]

theorem normalize_topic_degenerate_amended_witness :
    normalize_topic_body true (fun _ => none) PyVal.pynone = PyVal.pystr "Unknown" ∧
    normalize_topic_body false (fun _ => none) PyVal.pynone = PyVal.pynone :=
  ⟨(normalize_topic_degenerate_amended (fun _ => none) PyVal.pynone (Or.inl rfl)).1,
   (normalize_topic_degenerate_amended (fun _ => none) PyVal.pynone (Or.inl rfl)).2
     (fun _ => none)⟩

/-- C9 (confirmed): calling the memoized `normalize_topic` twice with
the same string returns the identical value both times and the second
call issues no remote request (so at most one remote call total); the
`lru_cache(maxsize=100)` cache never exceeds 100 entries, and when a
miss occurs on a full cache the least-recently-used (last) entry is the
one evicted. -/
theorem normalize_topic_memoized_lru (b1 b2 : Bool)
    (f1 f2 : String → Option String) (c : LruCache) (s : String) :
    ((normalize_topic_cached 100 b2 f2
        (normalize_topic_cached 100 b1 f1 c (PyVal.pystr s)).2.1 (PyVal.pystr s)).1
      = (normalize_topic_cached 100 b1 f1 c (PyVal.pystr s)).1) ∧
    (normalize_topic_cached 100 b2 f2
        (normalize_topic_cached 100 b1 f1 c (PyVal.pystr s)).2.1 (PyVal.pystr s)).2.2
      = false ∧
    (lruSize c ≤ 100 →
      lruSize (normalize_topic_cached 100 b1 f1 c (PyVal.pystr s)).2.1 ≤ 100) ∧
    (lruSize c = 100 → lruLookup (PyVal.pystr s) c = none →
      (normalize_topic_cached 100 b1 f1 c (PyVal.pystr s)).2.1
        = (PyVal.pystr s, (normalize_topic_cached 100 b1 f1 c (PyVal.pystr s)).1)
            :: c.dropLast) := by
  cases hc : lruLookup (PyVal.pystr s) c with
  | some v =>
      have hlook := lruLookup_touch_self (PyVal.pystr s) v c
      refine ⟨?_, ?_, ?_, ?_⟩
      · simp [normalize_topic_cached, hc, hlook]
      · simp [normalize_topic_cached, hc, hlook]
      · intro hsz
        have := lruSize_touch_le (PyVal.pystr s) v c hc
        simp [normalize_topic_cached, hc]
        omega
      · intro _ hnone
        simp [hc] at hnone
  | none =>
      have hlook := lruLookup_insert_self 100 (by omega) (PyVal.pystr s)
        (normalize_topic_body b1 f1 (PyVal.pystr s)) c
      refine ⟨?_, ?_, ?_, ?_⟩
      · simp [normalize_topic_cached, hc, hlook]
      · simp [normalize_topic_cached, hc, hlook]
      · intro _
        simpa [normalize_topic_cached, hc] using
          lruSize_insert_le 100 (PyVal.pystr s)
            (normalize_topic_body b1 f1 (PyVal.pystr s)) c
      · intro hsz _
        simp only [normalize_topic_cached, hc, lruInsert]
        have h99 : c.take 99 = c.dropLast := by
          rw [List.dropLast_eq_take]
          simp [lruSize] at hsz
          rw [hsz]
        simp [List.take_succ_cons, h99]

theorem normalize_topic_memoized_lru_witness :
    ((normalize_topic_cached 100 true (fun _ => some "Python Programming")
        (normalize_topic_cached 100 true (fun _ => some "Python Programming") []
          (PyVal.pystr "python programming")).2.1 (PyVal.pystr "python programming")).1
      = (normalize_topic_cached 100 true (fun _ => some "Python Programming") []
          (PyVal.pystr "python programming")).1) ∧
    lruSize (normalize_topic_cached 100 true (fun _ => some "Python Programming") []
        (PyVal.pystr "python programming")).2.1 ≤ 100 :=
  ⟨(normalize_topic_memoized_lru true true (fun _ => some "Python Programming")
      (fun _ => some "Python Programming") [] "python programming").1,
   (normalize_topic_memoized_lru true true (fun _ => some "Python Programming")
      (fun _ => some "Python Programming") [] "python programming").2.2.1 (by decide)⟩

/-- C10 (confirmed): because `lru_cache` wraps the whole body of
`normalize_topic`, a fail-open result (the original topic, returned when
the client is uninitialized or the remote call raises) is cached; while
the entry remains in the cache, every later call with the same string
returns that cached un-normalized value and issues no remote request. -/
theorem normalize_topic_fail_open_cached (b1 : Bool)
    (f1 : String → Option String) (c : LruCache) (s : String)
    (hfresh : lruLookup (PyVal.pystr s) c = none)
    (hfail : b1 = false ∨ f1 s = none) (hs : s ≠ "") :
    (normalize_topic_cached 100 b1 f1 c (PyVal.pystr s)).1 = PyVal.pystr s ∧
    lruLookup (PyVal.pystr s)
      (normalize_topic_cached 100 b1 f1 c (PyVal.pystr s)).2.1
      = some (PyVal.pystr s) ∧
    ∀ (c' : LruCache) (b2 : Bool) (f2 : String → Option String),
      lruLookup (PyVal.pystr s) c' = some (PyVal.pystr s) →
      (normalize_topic_cached 100 b2 f2 c' (PyVal.pystr s)).1 = PyVal.pystr s ∧
      (normalize_topic_cached 100 b2 f2 c' (PyVal.pystr s)).2.2 = false := by
  have hbody : normalize_topic_body b1 f1 (PyVal.pystr s) = PyVal.pystr s := by
    rcases hfail with h | h
    · subst h; simp [normalize_topic_body]
    · cases b1 with
      | false => simp [normalize_topic_body]
      | true => simp [normalize_topic_body, hs, h]
  refine ⟨?_, ?_, ?_⟩
  · simp [normalize_topic_cached, hfresh, hbody]
  · simp only [normalize_topic_cached, hfresh, hbody]
    exact lruLookup_insert_self 100 (by omega) _ _ _
  · intro c' b2 f2 hhit
    constructor <;> simp [normalize_topic_cached, hhit]

theorem normalize_topic_fail_open_cached_witness :
    (normalize_topic_cached 100 false (fun _ => none) []
      (PyVal.pystr "python programming")).1 = PyVal.pystr "python programming" :=
  (normalize_topic_fail_open_cached false (fun _ => none) [] "python programming"
    rfl (Or.inl rfl) (by decide)).1

theorem shotLoop_all_fail (shots : Nat → ShotAttempt) :
    ∀ l : List Nat,
      (∀ i ∈ l, shots i = ShotAttempt.ret none ∨ ∃ m, shots i = ShotAttempt.exn m) →
      shotLoop shots l = none := by
  intro l
  induction l with
  | nil => intro _; rfl
  | cons i rest ih =>
      intro h
      rcases h i (List.mem_cons_self i rest) with hi | ⟨m, hi⟩ <;>
        simp [shotLoop, hi, ih fun j hj => h j (List.mem_cons_of_mem i hj)]

theorem anaLoop_skip (maxR : Nat) (analyses : Nat → AnaAttempt) (t : Ts)
    (aw path : String) :
    ∀ pre suf : List Nat, (∀ i ∈ pre, anaRetryable maxR analyses i) →
      anaLoop maxR analyses t aw path (pre ++ suf)
        = anaLoop maxR analyses t aw path suf := by
  intro pre
  induction pre with
  | nil => intro suf _; rfl
  | cons i rest ih =>
      intro suf h
      have hi := h i (List.mem_cons_self i rest)
      have hrest := ih suf fun j hj => h j (List.mem_cons_of_mem i hj)
      rcases hi with hi | ⟨d, hd, hk, hlt⟩ | ⟨m, hm, hlt⟩
      · simpa [anaLoop, hi] using hrest
      · simpa [anaLoop, hd, hk, hlt] using hrest
      · simpa [anaLoop, hm, hlt] using hrest

theorem anaLoop_inv (maxR : Nat) (analyses : Nat → AnaAttempt) (t : Ts)
    (aw path : String) :
    ∀ l : List Nat,
      ((anaLoop maxR analyses t aw path l).1 = none ∧
        (anaLoop maxR analyses t aw path l).2.length ≤ 1) ∨
      (∃ d, (anaLoop maxR analyses t aw path l).1 = some d ∧
        d.errorKey = none ∧ (anaLoop maxR analyses t aw path l).2 = []) := by
  intro l
  induction l with
  | nil => left; simp [anaLoop]
  | cons i rest ih =>
      cases ha : analyses i with
      | res od =>
          cases od with
          | none => simpa [anaLoop, ha] using ih
          | some d =>
              cases he : d.errorKey with
              | none => right; exact ⟨d, by simp [anaLoop, ha, he], he, by simp [anaLoop, ha, he]⟩
              | some k =>
                  by_cases hc : k = "JSONDecodeError" ∧ i < maxR - 1
                  · simpa [anaLoop, ha, he, hc] using ih
                  · left; simp [anaLoop, ha, he, hc]
      | exn m =>
          by_cases hc : i < maxR - 1
          · simpa [anaLoop, ha, hc] using ih
          · left; simp [anaLoop, ha, hc]

theorem run_tracker_iteration_abort (maxR : Nat) (t : Ts)
    (win : Except String String) (shots : Nat → ShotAttempt)
    (analyses : Nat → AnaAttempt)
    (hs : shotLoop shots (List.range maxR) = none) :
    run_tracker_iteration maxR t win shots analyses = [] := by
  unfold run_tracker_iteration
  rw [hs]

theorem run_tracker_iteration_eq (maxR : Nat) (t : Ts)
    (win : Except String String) (shots : Nat → ShotAttempt)
    (analyses : Nat → AnaAttempt) (path : String) (ar : Option AnalysisDict)
    (recs : List SaveCall)
    (hs : shotLoop shots (List.range maxR) = some path)
    (hana : anaLoop maxR analyses t (active_window_of win) path
      (List.range maxR) = (ar, recs)) :
    run_tracker_iteration maxR t win shots analyses =
      match ar with
      | some d =>
          if d.errorKey = none then
            recs ++ [⟨t, active_window_of win, d.crispDescription.getD "N/A",
              d.mainTopic.getD "N/A", d.shortDescription.getD "N/A", some path⟩]
          else recs
      | none => recs := by
  unfold run_tracker_iteration
  rw [hs]
  dsimp only
  simp only [hana]
  cases ar <;> rfl

/-- C6 (confirmed): a single tracking iteration issues at most one
`save_activity` call, whatever the oracles do; and an iteration whose
analysis loop ends with a well-formed (error-free) result issues exactly
one. -/
theorem iteration_at_most_one_record (maxR : Nat) (t : Ts)
    (win : Except String String) (shots : Nat → ShotAttempt)
    (analyses : Nat → AnaAttempt) :
    (run_tracker_iteration maxR t win shots analyses).length ≤ 1 ∧
    (∀ p d recs, shotLoop shots (List.range maxR) = some p →
      anaLoop maxR analyses t (active_window_of win) p (List.range maxR)
        = (some d, recs) →
      (run_tracker_iteration maxR t win shots analyses).length = 1) := by
  constructor
  · cases hs : shotLoop shots (List.range maxR) with
    | none => simp [run_tracker_iteration_abort maxR t win shots analyses hs]
    | some path =>
        rcases hana : anaLoop maxR analyses t (active_window_of win) path
            (List.range maxR) with ⟨ar, recs⟩
        rw [run_tracker_iteration_eq maxR t win shots analyses path ar recs hs hana]
        rcases anaLoop_inv maxR analyses t (active_window_of win) path
            (List.range maxR) with ⟨h1, h2⟩ | ⟨d, h1, h2, h3⟩
        · rw [hana] at h1 h2
          cases ar with
          | none => simpa using h2
          | some d => simp at h1
        · rw [hana] at h1 h3
          cases ar with
          | none => simp at h1
          | some d' =>
              have hd : d' = d := by simpa using h1
              subst hd
              simp at h3
              simp [h2, h3]
  · intro p d recs hs hana
    rcases anaLoop_inv maxR analyses t (active_window_of win) p
        (List.range maxR) with ⟨h1, _⟩ | ⟨d', h1, h2, h3⟩
    · rw [hana] at h1; simp at h1
    · rw [hana] at h1 h3
      have hd : d = d' := by simpa using h1
      subst hd
      simp at h3
      subst h3
      rw [run_tracker_iteration_eq maxR t win shots analyses p (some d) [] hs hana]
      simp [h2]

/-- C2 (confirmed): when every screenshot attempt fails — returns `None`
or raises — the iteration ends with no `save_activity` call at all, so
the store's row count is unchanged. -/
theorem capture_failure_no_record (maxR : Nat) (t : Ts)
    (win : Except String String) (shots : Nat → ShotAttempt)
    (analyses : Nat → AnaAttempt)
    (hfail : ∀ i < maxR,
      shots i = ShotAttempt.ret none ∨ ∃ m, shots i = ShotAttempt.exn m) :
    run_tracker_iteration maxR t win shots analyses = [] := by
  have h := shotLoop_all_fail shots (List.range maxR)
    (fun i hi => hfail i (List.mem_range.mp hi))
  unfold run_tracker_iteration
  simp [h]

theorem shotLoop_first_ok (maxR : Nat) (shots : Nat → ShotAttempt) (p : String)
    (hmax : 1 ≤ maxR) (hshot : shots 0 = ShotAttempt.ret (some p)) (hp : p ≠ "") :
    shotLoop shots (List.range maxR) = some p := by
  cases maxR with
  | zero => omega
  | succ n =>
      rw [List.range_eq_range', List.range'_succ]
      simp [shotLoop, hshot, hp]

theorem anaLoop_all_none (maxR : Nat) (analyses : Nat → AnaAttempt) (t : Ts)
    (aw path : String) :
    ∀ l : List Nat, (∀ i ∈ l, analyses i = AnaAttempt.res none) →
      anaLoop maxR analyses t aw path l = (none, []) := by
  intro l
  induction l with
  | nil => intro _; rfl
  | cons i rest ih =>
      intro h
      have hi := h i (List.mem_cons_self i rest)
      simp [anaLoop, hi, ih fun j hj => h j (List.mem_cons_of_mem i hj)]

/-- C1 (amended): if `analyze_screenshot` returns `None` on every
attempt, the iteration writes no record at all and abandons
classification; the explicit `"Analysis Failed"` failure record (with
`ShortDescription` `"Exception during analysis: "` followed by the
exception text) is written exactly when the final attempt raises an
exception. -/
theorem analysis_none_no_record (maxR : Nat) (t : Ts)
    (win : Except String String) (shots : Nat → ShotAttempt)
    (analyses : Nat → AnaAttempt) (p : String)
    (hmax : 1 ≤ maxR) (hshot : shots 0 = ShotAttempt.ret (some p)) (hp : p ≠ "") :
    ((∀ i < maxR, analyses i = AnaAttempt.res none) →
      run_tracker_iteration maxR t win shots analyses = []) ∧
    (∀ m, (∀ i < maxR - 1, analyses i = AnaAttempt.res none) →
      analyses (maxR - 1) = AnaAttempt.exn m →
      run_tracker_iteration maxR t win shots analyses
        = [⟨t, active_window_of win, "Analysis Failed", "Error",
            "Exception during analysis: " ++ m, some p⟩]) := by
  have hsl := shotLoop_first_ok maxR shots p hmax hshot hp
  constructor
  · intro hall
    have hana := anaLoop_all_none maxR analyses t (active_window_of win) p
      (List.range maxR) (fun i hi => hall i (List.mem_range.mp hi))
    rw [run_tracker_iteration_eq maxR t win shots analyses p none [] hsl hana]
  · intro m hall hlast
    have hsplit : List.range maxR
        = List.range' 0 (maxR - 1) ++ [maxR - 1] := by
      rw [List.range_eq_range']
      have happ := List.range'_append_1 0 (maxR - 1) 1
      simp only [Nat.zero_add, List.range'_one] at happ
      rw [happ]
      congr 1
      omega
    have hpre : ∀ i ∈ List.range' 0 (maxR - 1),
        anaRetryable maxR analyses i := by
      intro i hi
      have : i < maxR - 1 := by
        have := List.mem_range'_1.mp hi
        omega
      exact Or.inl (hall i this)
    have hana : anaLoop maxR analyses t (active_window_of win) p
        (List.range maxR)
        = (none, [⟨t, active_window_of win, "Analysis Failed", "Error",
            "Exception during analysis: " ++ m, some p⟩]) := by
      rw [hsplit, anaLoop_skip maxR analyses t (active_window_of win) p _ _
        (fun i hi => by
          rcases hpre i hi with h | h | h
          · exact Or.inl h
          · exact Or.inr (Or.inl h)
          · exact Or.inr (Or.inr h))]
      simp [anaLoop, hlast]
    rw [run_tracker_iteration_eq maxR t win shots analyses p none _ hsl hana]

theorem analysis_none_no_record_witness :
    run_tracker_iteration 3 ⟨2026, 10, 12, 3, 0, 0, 0⟩ (Except.ok "App")
      (fun _ => ShotAttempt.ret (some "data/screenshots/s.png"))
      (fun i => if i = 2 then AnaAttempt.exn "boom" else AnaAttempt.res none)
      = [⟨⟨2026, 10, 12, 3, 0, 0, 0⟩, "App", "Analysis Failed", "Error",
          "Exception during analysis: boom", some "data/screenshots/s.png"⟩] :=
  (analysis_none_no_record 3 ⟨2026, 10, 12, 3, 0, 0, 0⟩ (Except.ok "App")
    (fun _ => ShotAttempt.ret (some "data/screenshots/s.png"))
    (fun i => if i = 2 then AnaAttempt.exn "boom" else AnaAttempt.res none)
    "data/screenshots/s.png" (by omega) rfl (by decide)).2 "boom"
    (by intro i hi; interval_cases i <;> rfl) rfl

/-- C1 counterexample: with a successful screenshot and
`analyze_screenshot` returning `None` on all three attempts, the
iteration saves nothing — no `"Analysis Failed"` failure record is
written for the hard-failure (`None`) path. -/
theorem analysis_none_counterexample :
    run_tracker_iteration 3 ⟨2026, 10, 12, 3, 0, 0, 0⟩ (Except.ok "App")
      (fun _ => ShotAttempt.ret (some "data/screenshots/s.png"))
      (fun _ => AnaAttempt.res none) = [] := by
  rfl

/-- C3 (confirmed): when the analysis retry loop reaches an attempt
whose result carries an `error` key that is non-retryable — not
`"JSONDecodeError"`, or on the final attempt — after a prefix of retried
attempts, the loop saves exactly one failure record with
`CrispDescription = "Analysis Error"`, `MainTopic = "Error"`,
`ShortDescription` the raw response content, and `ScreenshotFile` the
captured path, and stops retrying; `"JSONDecodeError"` results with
retries remaining are retried, not recorded. -/
theorem analysis_error_failure_record (maxR : Nat) (t : Ts)
    (win : Except String String) (shots : Nat → ShotAttempt)
    (analyses : Nat → AnaAttempt) (p : String) (j : Nat) (d : AnalysisDict)
    (hmax : 1 ≤ maxR) (hshot : shots 0 = ShotAttempt.ret (some p)) (hp : p ≠ "")
    (hj : j < maxR)
    (hpre : ∀ i < j, anaRetryable maxR analyses i)
    (hdj : analyses j = AnaAttempt.res (some d))
    (hkey : d.errorKey.isSome)
    (hnr : d.errorKey ≠ some "JSONDecodeError" ∨ j = maxR - 1) :
    run_tracker_iteration maxR t win shots analyses
      = [⟨t, active_window_of win, "Analysis Error", "Error",
          d.rawContent.getD "Analysis failed", some p⟩] := by
  have hsl := shotLoop_first_ok maxR shots p hmax hshot hp
  obtain ⟨k, hk⟩ := Option.isSome_iff_exists.mp hkey
  have hsplit : List.range maxR
      = List.range' 0 j ++ (j :: List.range' (j + 1) (maxR - j - 1)) := by
    rw [List.range_eq_range']
    have h1 : List.range' j (maxR - j)
        = j :: List.range' (j + 1) (maxR - j - 1) := by
      conv_lhs => rw [show maxR - j = (maxR - j - 1) + 1 from by omega]
      exact List.range'_succ _ _ _
    rw [← h1]
    have := List.range'_append_1 0 j (maxR - j)
    simp only [Nat.zero_add] at this
    rw [this]
    congr 1
    omega
  have hguard : ¬ (k = "JSONDecodeError" ∧ j < maxR - 1) := by
    rcases hnr with h | h
    · intro ⟨hk', _⟩
      exact h (by rw [hk, hk'])
    · intro ⟨_, hlt⟩
      omega
  have hana : anaLoop maxR analyses t (active_window_of win) p
      (List.range maxR)
      = (none, [⟨t, active_window_of win, "Analysis Error", "Error",
          d.rawContent.getD "Analysis failed", some p⟩]) := by
    rw [hsplit, anaLoop_skip maxR analyses t (active_window_of win) p _ _
      (fun i hi => hpre i (by
        have := List.mem_range'_1.mp hi
        omega))]
    simp [anaLoop, hdj, hk, hguard]
  rw [run_tracker_iteration_eq maxR t win shots analyses p none _ hsl hana]

theorem analysis_error_failure_record_witness :
    run_tracker_iteration 3 ⟨2026, 10, 12, 3, 0, 0, 0⟩ (Except.ok "App")
      (fun _ => ShotAttempt.ret (some "data/screenshots/s.png"))
      (fun i => if i = 0 then AnaAttempt.res none
        else AnaAttempt.res (some ⟨some "Invalid JSON structure",
          some "raw stuff", none, none, none⟩))
      = [⟨⟨2026, 10, 12, 3, 0, 0, 0⟩, "App", "Analysis Error", "Error",
          "raw stuff", some "data/screenshots/s.png"⟩] :=
  analysis_error_failure_record 3 ⟨2026, 10, 12, 3, 0, 0, 0⟩ (Except.ok "App")
    (fun _ => ShotAttempt.ret (some "data/screenshots/s.png"))
    (fun i => if i = 0 then AnaAttempt.res none
      else AnaAttempt.res (some ⟨some "Invalid JSON structure",
        some "raw stuff", none, none, none⟩))
    "data/screenshots/s.png" 1 ⟨some "Invalid JSON structure",
      some "raw stuff", none, none, none⟩
    (by omega) rfl (by decide) (by omega)
    (by intro i hi; interval_cases i; exact Or.inl rfl)
    rfl (by decide) (Or.inl (by decide))

theorem capture_failure_no_record_witness :
    run_tracker_iteration 3 ⟨2026, 10, 12, 3, 0, 0, 0⟩ (Except.ok "App")
      (fun _ => ShotAttempt.ret none) (fun _ => AnaAttempt.res none) = [] :=
  capture_failure_no_record 3 ⟨2026, 10, 12, 3, 0, 0, 0⟩ (Except.ok "App")
    (fun _ => ShotAttempt.ret none) (fun _ => AnaAttempt.res none)
    (fun _ _ => Or.inl rfl)

theorem dig_facts : ∀ d, d < 10 → isDig (dChar d) = true ∧ dVal (dChar d) = d := by
  intro d hd
  interval_cases d <;> exact ⟨by decide, by decide⟩

theorem padNum_length : ∀ n k, (padNum n k).length = n := by
  intro n
  induction n with
  | zero => intro k; rfl
  | succ n ih => intro k; simp [padNum, ih]

theorem read_pad (n acc k : Nat) (h : k < 10 ^ n) :
    ∀ r, readFixed n acc (padNum n k ++ r) = some (acc * 10 ^ n + k, r) := by
  induction n generalizing acc k with
  | zero =>
      intro r
      have hk : k = 0 := by
        have : (10 : Nat) ^ 0 = 1 := by norm_num
        omega
      subst hk
      simp [padNum, readFixed]
  | succ n ih =>
      intro r
      have h' : k < 10 ^ n * 10 := by
        rw [Nat.pow_succ] at h
        omega
      have hd : k / 10 ^ n < 10 := Nat.div_lt_of_lt_mul (by omega)
      have hm : k % 10 ^ n < 10 ^ n := Nat.mod_lt _ (by positivity)
      obtain ⟨hdig, hval⟩ := dig_facts (k / 10 ^ n) hd
      have key : (acc * 10 + k / 10 ^ n) * 10 ^ n + k % 10 ^ n
          = acc * 10 ^ (n + 1) + k := by
        have hdm := Nat.div_add_mod k (10 ^ n)
        calc (acc * 10 + k / 10 ^ n) * 10 ^ n + k % 10 ^ n
            = acc * (10 ^ n * 10) + (10 ^ n * (k / 10 ^ n) + k % 10 ^ n) := by
              ring
          _ = acc * 10 ^ (n + 1) + k := by rw [hdm, Nat.pow_succ]
      simp only [padNum, List.cons_append, List.append_eq, readFixed, hdig,
        if_true, hval]
      rw [ih (acc * 10 + k / 10 ^ n) (k % 10 ^ n) hm r, key]

theorem read_pad_nil (n acc k : Nat) (h : k < 10 ^ n) :
    readFixed n acc (padNum n k) = some (acc * 10 ^ n + k, []) := by
  simpa using read_pad n acc k h []

theorem parseTs_serTs (t : Ts) (h : ValidTs t) :
    parseTs (serTsChars t) = some t := by
  obtain ⟨h1, h2, h3, h4, h5, h6, h7⟩ := h
  by_cases hm : t.micro = 0
  · simp [parseTs, serTsChars, hm, expectChar,
      read_pad 4 0 t.year h1, read_pad 2 0 t.month h2, read_pad 2 0 t.day h3,
      read_pad 2 0 t.hour h4, read_pad 2 0 t.minute h5,
      read_pad_nil 2 0 t.second h6]
    rw [← hm]
  · simp [parseTs, serTsChars, hm, expectChar,
      read_pad 4 0 t.year h1, read_pad 2 0 t.month h2, read_pad 2 0 t.day h3,
      read_pad 2 0 t.hour h4, read_pad 2 0 t.minute h5,
      read_pad 2 0 t.second h6, read_pad_nil 6 0 t.micro h7]

theorem serTsChars_length (t : Ts) :
    (serTsChars t).length = if t.micro = 0 then 19 else 26 := by
  by_cases hm : t.micro = 0 <;>
    simp [serTsChars, hm, padNum_length]

/-- C4 counterexample: a stored file whose first row has a parseable
timestamp and whose second does not loads as the empty frame — the
parseable row is dropped along with the bad one, not returned. -/
theorem load_mixed_timestamps_counterexample :
    load_activity_data (some
      [⟨"2026-10-12 03:00:00.000001", "a", "b", "c", "d", ""⟩,
       ⟨"hello", "a", "b", "c", "d", ""⟩]) = [] ∧
    (tsCell "2026-10-12 03:00:00.000001").isSome = true ∧
    tsCell "hello" = none :=
  ⟨rfl, rfl, rfl⟩

/-- C4 (amended): if any row's timestamp fails to parse, the whole load
returns an empty frame (every row is dropped, parseable ones included);
no exception propagates — the load is total.  When every row's
timestamp converts, all rows are returned (the converted frame, with as
many rows as the file). -/
theorem load_bad_timestamp_drops_all (rows : List CsvRow)
    (hbad : ∃ r ∈ rows, tsCell r.timestamp = none) :
    load_activity_data (some rows) = [] ∧
    ∀ rows2 : List CsvRow, (∀ r ∈ rows2, (tsCell r.timestamp).isSome) →
      load_activity_data (some rows2) = convertFrame rows2 ∧
      (load_activity_data (some rows2)).length = rows2.length := by
  constructor
  · obtain ⟨r, hr, hnone⟩ := hbad
    have hnall : ¬ (rows.all (fun r => (tsCell r.timestamp).isSome) = true) := by
      intro hall
      have := List.all_eq_true.mp hall r hr
      rw [hnone] at this
      simp at this
    simp only [load_activity_data]
    rw [if_neg hnall]
  · intro rows2 h2
    have hall : rows2.all (fun r => (tsCell r.timestamp).isSome) = true :=
      List.all_eq_true.mpr fun r hr => by simpa using h2 r hr
    have hload : load_activity_data (some rows2) = convertFrame rows2 := by
      simp only [load_activity_data]
      rw [if_pos hall]
    refine ⟨hload, ?_⟩
    rw [hload]
    unfold convertFrame
    simp

theorem load_bad_timestamp_drops_all_witness :
    load_activity_data (some
      [⟨"2026-10-12 03:00:00.000001", "a", "b", "c", "d", ""⟩,
       ⟨"hello", "a", "b", "c", "d", ""⟩]) = [] :=
  (load_bad_timestamp_drops_all
    [⟨"2026-10-12 03:00:00.000001", "a", "b", "c", "d", ""⟩,
     ⟨"hello", "a", "b", "c", "d", ""⟩]
    ⟨⟨"hello", "a", "b", "c", "d", ""⟩, by decide, rfl⟩).1

theorem serTs_not_na (t : Ts) : serTs t ∉ naTokens := by
  intro hmem
  have hlen : ∀ x ∈ naTokens, String.length x ≤ 8 := by decide
  have h8 := hlen _ hmem
  have hsl : (serTs t).length = (serTsChars t).length := rfl
  rw [hsl, serTsChars_length] at h8
  by_cases hm : t.micro = 0 <;> simp [hm] at h8

theorem load_map_of_ok (rows : List CsvRow)
    (hrows : ∀ r ∈ rows, (tsCell r.timestamp).isSome) :
    load_activity_data (some rows) = convertFrame rows := by
  have hall : rows.all (fun r => (tsCell r.timestamp).isSome) = true :=
    List.all_eq_true.mpr fun r hr => by simpa using hrows r hr
  simp only [load_activity_data]
  rw [if_pos hall]

theorem convertFrame_length (rows : List CsvRow) :
    (convertFrame rows).length = rows.length := by
  unfold convertFrame
  simp

theorem inferColType_obj (cells : List String) (c : String) (hc : c ∈ cells)
    (hp : PlainText c) : inferColType cells = ColType.tObj := by
  obtain ⟨hna, hint, hfl, hinf, hb⟩ := hp
  have hmem : c ∈ cells.filter (fun s => decide (s ∉ naTokens)) :=
    List.mem_filter.mpr ⟨hc, decide_eq_true hna⟩
  have hne : (cells.filter (fun s => decide (s ∉ naTokens))).isEmpty = false := by
    rw [Bool.eq_false_iff]
    intro hh
    rw [List.isEmpty_iff] at hh
    rw [hh] at hmem
    exact absurd hmem (List.not_mem_nil c)
  have hci : cellIntOk c = false := by
    unfold cellIntOk
    rw [hint]
  have hcn : cellNumericOk c = false := by
    unfold cellNumericOk
    rw [hfl, hinf]
    rfl
  have hcb : (csvBoolVal c).isSome = false := by
    rw [hb]
    rfl
  have hallInt : (cells.filter (fun s => decide (s ∉ naTokens))).all cellIntOk
      = false := by
    rw [Bool.eq_false_iff]
    intro hall
    have := List.all_eq_true.mp hall c hmem
    rw [hci] at this
    exact absurd this (by simp)
  have hallNum : (cells.filter (fun s => decide (s ∉ naTokens))).all
      cellNumericOk = false := by
    rw [Bool.eq_false_iff]
    intro hall
    have := List.all_eq_true.mp hall c hmem
    rw [hcn] at this
    exact absurd this (by simp)
  have hallBool : (cells.filter (fun s => decide (s ∉ naTokens))).all
      (fun s => (csvBoolVal s).isSome) = false := by
    rw [Bool.eq_false_iff]
    intro hall
    have := List.all_eq_true.mp hall c hmem
    simp only at this
    rw [hcb] at this
    exact absurd this (by simp)
  simp only [inferColType]
  rw [hne, hallInt, hallNum, hallBool]
  simp

theorem convCell_obj (s : String) (h : s ∉ naTokens) :
    convCell ColType.tObj s = LoadedCell.str s := by
  unfold convCell
  rw [if_neg h]

theorem convCell_na (ct : ColType) (s : String) (h : s ∈ naTokens) :
    convCell ct s = LoadedCell.nan := by
  unfold convCell
  rw [if_pos h]

theorem dropWhile_length_le (p : Char → Bool) :
    ∀ l : List Char, (l.dropWhile p).length ≤ l.length := by
  intro l
  induction l with
  | nil => simp
  | cons c t ih =>
      rw [List.dropWhile_cons]
      by_cases h : p c = true
      · rw [if_pos h]
        simp only [List.length_cons]
        omega
      · rw [if_neg h]

theorem dropWhile_eq_self_head (p : Char → Bool) (c : Char) (t : List Char)
    (h : (c :: t).dropWhile p = c :: t) : p c = false := by
  by_contra hcc
  rw [Bool.not_eq_false] at hcc
  rw [List.dropWhile_cons, if_pos hcc] at h
  have hlen := congrArg List.length h
  have hle := dropWhile_length_le p t
  simp at hlen
  omega

theorem dropEnd_append_fence (p : Char → Bool) (hbq : p bq = true)
    (hnl : p '\n' = false) (A : List Char) :
    dropWhileEndP p (A ++ "\n```".toList) = A ++ ['\n'] := by
  unfold dropWhileEndP
  rw [List.reverse_append]
  have h4 : ("\n```".toList).reverse = bq :: bq :: bq :: '\n' :: [] := rfl
  rw [h4]
  simp [List.dropWhile_cons, hbq, hnl]

theorem stripWs_core (s : List Char) (h1 : s.dropWhile isPyWs = s)
    (h2 : dropWhileEndP isPyWs s = s) :
    pyStripWs ('\n' :: (s ++ ['\n'])) = s := by
  have hnl : isPyWs '\n' = true := rfl
  cases s with
  | nil => rfl
  | cons c t =>
      have hc : isPyWs c = false := dropWhile_eq_self_head _ _ _ h1
      have h2' : (c :: t).reverse.dropWhile isPyWs = (c :: t).reverse := by
        have := congrArg List.reverse h2
        simpa [dropWhileEndP] using this
      unfold pyStripWs
      have hfront : List.dropWhile isPyWs ('\n' :: ((c :: t) ++ ['\n']))
          = (c :: t) ++ ['\n'] := by
        simp [List.dropWhile_cons, hnl, hc]
      rw [hfront]
      unfold dropWhileEndP
      rw [List.reverse_append]
      have h1' : (['\n'] : List Char).reverse = ['\n'] := rfl
      rw [h1']
      show (List.dropWhile isPyWs ('\n' :: (c :: t).reverse)).reverse = c :: t
      rw [List.dropWhile_cons, if_pos hnl, h2', List.reverse_reverse]

theorem strip_wrapJson (s : List Char) (h1 : s.dropWhile isPyWs = s)
    (h2 : dropWhileEndP isPyWs s = s) : stripFences (wrapJson s) = s := by
  have hstart : pyStartsWith ("```json".toList) (wrapJson s) = true := rfl
  have hfront : (wrapJson s).dropWhile (inSet fenceJsonSet)
      = ('\n' :: s) ++ "\n```".toList := rfl
  simp only [stripFences, hstart, if_true]
  unfold pyStripSet
  rw [hfront, dropEnd_append_fence (inSet fenceJsonSet) rfl rfl ('\n' :: s)]
  exact stripWs_core s h1 h2

theorem strip_wrapPlain (s : List Char) (h1 : s.dropWhile isPyWs = s)
    (h2 : dropWhileEndP isPyWs s = s) : stripFences (wrapPlain s) = s := by
  have hstart1 : pyStartsWith ("```json".toList) (wrapPlain s) = false := rfl
  have hstart2 : pyStartsWith ("```".toList) (wrapPlain s) = true := rfl
  have hfront : (wrapPlain s).dropWhile (inSet fenceSet)
      = ('\n' :: s) ++ "\n```".toList := rfl
  simp only [stripFences, hstart1, hstart2, if_true, Bool.false_eq_true,
    if_false]
  unfold pyStripSet
  rw [hfront, dropEnd_append_fence (inSet fenceSet) rfl rfl ('\n' :: s)]
  exact stripWs_core s h1 h2

/-- C8 (confirmed): for a response payload with no surrounding
whitespace of its own, wrapping it in ```` ```json ```` or plain
```` ``` ```` code fences and running the stripping-then-parsing block
yields exactly the same outcome — the same validated three-key object,
the same error classification with the same raw content, or the same
hard failure — as parsing the unwrapped text directly. -/
theorem fence_strip_parse_equiv (s : List Char)
    (h1 : s.dropWhile isPyWs = s) (h2 : dropWhileEndP isPyWs s = s) :
    classify_content (wrapJson s) = parse_validate s ∧
    classify_content (wrapPlain s) = parse_validate s := by
  unfold classify_content
  rw [strip_wrapJson s h1 h2, strip_wrapPlain s h1 h2]
  exact ⟨rfl, rfl⟩

theorem fence_strip_parse_equiv_witness :
    classify_content (wrapJson
        ("\x7b\"crisp_description\": \"a\", \"main_topic\": \"b\", \"short_description\": \"c\"\x7d".toList))
      = parse_validate
        ("\x7b\"crisp_description\": \"a\", \"main_topic\": \"b\", \"short_description\": \"c\"\x7d".toList) ∧
    classify_content (wrapPlain ("not json".toList))
      = parse_validate ("not json".toList) :=
  ⟨(fence_strip_parse_equiv
      ("\x7b\"crisp_description\": \"a\", \"main_topic\": \"b\", \"short_description\": \"c\"\x7d".toList)
      rfl rfl).1,
   (fence_strip_parse_equiv ("not json".toList) rfl rfl).2⟩

end TaskTracker
